import Mathlib

/-!
Verification of the orchestraitor capture engine (src/orchestraitor/main.py)
against its natural-language specification.

The embedding below translates the capture-session core of main.py into
executable Lean definitions: the filesystem, the HTTP transport and the
unified-diff routine are external collaborators and appear as explicit
function parameters; the process-wide mutable globals (command_log,
file_changes, executed_scripts, capturing) become explicit state records
threaded through the functions that mutate them.
-/

/-! ## Python string primitives used by main.py -/

/-- The ASCII whitespace characters removed by the Python str.strip method. -/
def isPySpace (c : Char) : Bool :=
  c = ' ' || c = '\t' || c = '\n' || c = '\r' || c = '\x0b' || c = '\x0c'

/-- Model of the Python str.strip method: remove leading and trailing
whitespace characters. -/
def pyStrip (s : String) : String :=
  String.mk (((s.data.dropWhile isPySpace).reverse.dropWhile isPySpace).reverse)

/-- Whether the first list is an initial segment of the second. -/
def beginsWith : List Char → List Char → Bool
  | [], _ => true
  | _ :: _, [] => false
  | a :: as, b :: bs => a == b && beginsWith as bs

/-- Model of the Python substring test (sub in s). -/
def hasSub (sub s : String) : Bool :=
  s.data.tails.any (fun t => beginsWith sub.data t)

/-- Model of the Python str.endswith method. -/
def pyEndsWith (s post : String) : Bool :=
  beginsWith post.data.reverse s.data.reverse

/-! ## Ordered string-keyed maps (Python dict semantics) -/

/-- Python dict assignment d[k] = v: replace the value of an existing key in
place, otherwise append the new binding at the end. -/
def setEntry {α : Type} : List (String × α) → String → α → List (String × α)
  | [], k, v => [(k, v)]
  | (k0, v0) :: rest, k, v =>
      if k0 = k then (k, v) :: rest else (k0, v0) :: setEntry rest k v

/-- Python dict lookup d.get(k). -/
def lookupEntry {α : Type} : List (String × α) → String → Option α
  | [], _ => none
  | (k0, v0) :: rest, k => if k0 = k then some v0 else lookupEntry rest k

/-! ## External collaborators -/

/-- The filesystem as seen by main.py: os.path.exists, and opening a file for
reading followed by readlines. A readLines result of none models a missing
file or a read that raises (permissions, deletion between check and read). -/
structure FS where
  pathExists : String → Bool
  readLines : String → Option (List String)

/-! ## Diff Tracker: FileEditHandler.on_modified (main.py lines 64-88) -/

/-- One value of the file_changes dict: the stored line content and the
optional unified-diff text. -/
structure FileEntry where
  content : List String
  diff : Option String
deriving DecidableEq

/-- Embedding of FileEditHandler.on_modified. The udiff parameter stands for
the external difflib.unified_diff joined with newlines; capturing is the
module-level capturing flag; file_changes is the module-level dict. Directory
events and paths ending in .new are skipped; when not capturing nothing
happens; a failed read is printed and leaves the map unchanged. When the path
is already tracked, only the diff field of its entry is reassigned (the code
assigns to the diff key of the existing dict entry and never reassigns the
content key); otherwise a fresh entry with a None diff is inserted. -/
def on_modified (udiff : List String → List String → String) (fs : FS)
    (capturing : Bool) (file_changes : List (String × FileEntry))
    (is_directory : Bool) (src_path : String) : List (String × FileEntry) :=
  if is_directory || pyEndsWith src_path ".new" then file_changes
  else if capturing then
    match fs.readLines src_path with
    | none => file_changes
    | some new_content =>
      match lookupEntry file_changes src_path with
      | some entry =>
          setEntry file_changes src_path
            { content := entry.content, diff := some (udiff entry.content new_content) }
      | none =>
          setEntry file_changes src_path { content := new_content, diff := none }
  else file_changes

/-- A sequence of successful modification observations of one file path while
capturing: each element of contents is the full content read at that event. -/
def observeSeq (udiff : List String → List String → String)
    (file_changes : List (String × FileEntry)) (path : String)
    (contents : List (List String)) : List (String × FileEntry) :=
  contents.foldl
    (fun m c => on_modified udiff ⟨fun _ => true, fun _ => some c⟩ true m false path)
    file_changes

/-- A concrete stand-in for the external difflib.unified_diff text in
counterexamples; like a real unified diff it distinguishes different before
contents for a fixed after content. -/
def lenDiff (a b : List String) : String :=
  toString a.length ++ "->" ++ toString b.length

/-! ## Script Capture: capture_script (main.py lines 111-120) -/

/-- Embedding of capture_script over the executed_scripts dict: if the path
exists, read it and assign executed_scripts[script_path] = content (a plain
dict assignment, overwriting any previous entry); a read failure is printed
and stores nothing. -/
def capture_script (fs : FS) (executed_scripts : List (String × List String))
    (script_path : String) : List (String × List String) :=
  if fs.pathExists script_path then
    match fs.readLines script_path with
    | some content => setEntry executed_scripts script_path content
    | none => executed_scripts
  else executed_scripts

/-! ## Command Interceptor: capture_command (main.py lines 122-132) -/

/-- The capture state mutated by the command interceptor: the command_log
list and the executed_scripts dict. -/
structure CapState where
  command_log : List String
  executed_scripts : List (String × List String)
deriving DecidableEq

/-- Embedding of capture_command: strip the line; return early when the
result is empty or contains the substring orcai; otherwise append it to
command_log and, when it ends in .sh and exists on disk, capture the script
content. -/
def capture_command (fs : FS) (st : CapState) (command : String) : CapState :=
  let cmd := pyStrip command
  if cmd = "" then st
  else if hasSub "orcai" cmd then st
  else
    let st1 : CapState := { st with command_log := st.command_log ++ [cmd] }
    if pyEndsWith cmd ".sh" && fs.pathExists cmd then
      { st1 with executed_scripts := capture_script fs st1.executed_scripts cmd }
    else st1

/-- Feeding a sequence of raw lines to the command interceptor in order. -/
def captureLines (fs : FS) (st : CapState) (lines : List String) : CapState :=
  lines.foldl (capture_command fs) st

/-- The survivor function implicit in capture_command: the stripped line when
it is kept, none when it is discarded. -/
def keepCmd (line : String) : Option String :=
  let cmd := pyStrip line
  if cmd = "" then none
  else if hasSub "orcai" cmd then none
  else some cmd

/-! ## Permissive byte decoding: user_input.decode(errors="ignore")
(main.py line 199) -/

/-- Classification of a UTF-8 lead byte above 0x7F: the initial codepoint
accumulator, the number of continuation bytes required, and the inclusive
valid range of the first continuation byte (the narrowed ranges after 0xE0,
0xED, 0xF0 and 0xF4 exclude overlong encodings and surrogates, exactly as
the strict Python UTF-8 codec does). A none result is an invalid lead. -/
def utf8Lead (b : Nat) : Option (Nat × Nat × Nat × Nat) :=
  if 0xC2 ≤ b ∧ b ≤ 0xDF then some (b - 0xC0, 1, 0x80, 0xBF)
  else if 0xE0 ≤ b ∧ b ≤ 0xEF then
    if b = 0xE0 then some (0, 2, 0xA0, 0xBF)
    else if b = 0xED then some (0xD, 2, 0x80, 0x9F)
    else some (b - 0xE0, 2, 0x80, 0xBF)
  else if 0xF0 ≤ b ∧ b ≤ 0xF4 then
    if b = 0xF0 then some (0, 3, 0x90, 0xBF)
    else if b = 0xF4 then some (4, 3, 0x80, 0x8F)
    else some (b - 0xF0, 3, 0x80, 0xBF)
  else none

/-- Decoder state between bytes: either at a sequence boundary, or inside a
multi-byte sequence holding the accumulator, the count of still-missing
continuation bytes, and the valid range of the next continuation byte. -/
inductive Utf8Pend where
  | clear
  | pend (acc need lo hi : Nat)
deriving DecidableEq

/-- Processing one byte at a sequence boundary: ASCII is emitted directly, a
valid lead byte opens a pending sequence, anything else is a maximal
ill-formed subpart of length one, yielding the error token e. -/
def utf8Start (e : List Char) (b : Nat) : List Char × Utf8Pend :=
  if b < 0x80 then ([Char.ofNat b], .clear)
  else match utf8Lead b with
    | some (acc, need, lo, hi) => ([], .pend acc need lo hi)
    | none => (e, .clear)

/-- Processing one byte in any decoder state. An invalid continuation byte
closes the pending maximal ill-formed subpart (yielding the token e) and is
itself reexamined as a fresh lead byte, as the Python codec does. -/
def utf8Step (e : List Char) (st : Utf8Pend) (b : Nat) : List Char × Utf8Pend :=
  match st with
  | .clear => utf8Start e b
  | .pend acc need lo hi =>
    if lo ≤ b ∧ b ≤ hi then
      if need = 1 then ([Char.ofNat (acc * 64 + (b - 0x80))], .clear)
      else ([], .pend (acc * 64 + (b - 0x80)) (need - 1) 0x80 0xBF)
    else
      let fresh := utf8Start e b
      (e ++ fresh.1, fresh.2)

/-- Model of the Python bytes.decode method with the UTF-8 codec and an
errors handler: each decoded character is emitted in order, and each maximal
ill-formed subpart contributes the handler token e, which is empty for
errors=ignore (what main.py passes at line 199) and a single replacement
character for errors=replace. A sequence left incomplete at the end of the
chunk is itself an ill-formed subpart. The fold step accumulates the
emitted characters and threads the decoder state. -/
def decFold (e : List Char) (p : List Char × Utf8Pend) (b : Nat) :
    List Char × Utf8Pend :=
  let s := utf8Step e p.2 b
  (p.1 ++ s.1, s.2)

def pyDecode (e : List Char) (bytes : List Nat) : List Char :=
  let r := bytes.foldl (decFold e) (([], Utf8Pend.clear) : List Char × Utf8Pend)
  match r.2 with
  | .clear => r.1
  | .pend _ _ _ _ => r.1 ++ e

/-- Modelled from the spec: the permissive decoding the spec describes, in
which every undecodable span is replaced by the Unicode replacement character
rather than dropped. -/
def specDecodeReplace (bytes : List Nat) : List Char :=
  pyDecode [Char.ofNat 0xFFFD] bytes

/-- Model of the Python str.split method with a newline separator, over the
character list: the list of (possibly empty) segments between newlines. The
result always has one more segment than there are newline characters, and
the final segment is the partial line after the last newline. -/
def splitNl : List Char → List (List Char)
  | [] => [[]]
  | c :: cs =>
    if c = '\n' then [] :: splitNl cs
    else
      match splitNl cs with
      | [] => [[c]]
      | seg :: rest => (c :: seg) :: rest

/-! ## Stdin chunk handling inside the multiplexing loop
(main.py lines 194-202) -/

/-- Embedding of the stdin branch of the multiplexing loop for a nonempty
chunk: decode the chunk with errors=ignore, split the text on newline, feed
every resulting segment to capture_command, and write the original
unmodified bytes to the PTY master (the second component of the result). -/
def handleStdinChunk (fs : FS) (st : CapState) (chunk : List Nat) :
    CapState × List Nat :=
  let lines := (splitNl (pyDecode [] chunk)).map String.mk
  (lines.foldl (capture_command fs) st, chunk)

/-- Modelled from the spec: the stdin branch as the spec describes it, which
hands only the non-final line segments to the command interceptor. -/
def specHandleStdinChunk (fs : FS) (st : CapState) (chunk : List Nat) :
    CapState × List Nat :=
  let lines := (splitNl (pyDecode [] chunk)).map String.mk
  (lines.dropLast.foldl (capture_command fs) st, chunk)

/-! ## The multiplexing loop and session teardown
(main.py lines 138-205) -/

/-- Which exit path ended the multiplexing loop. UserEOF is the zero-byte
stdin read (line 196); ShellExited is the zero-byte PTY master read
(line 189). -/
inductive TermReason where
  | UserEOF
  | ShellExited
deriving DecidableEq

/-- One readiness event of the select loop: a chunk read from the PTY master
or a chunk read from the real terminal standard input. -/
inductive PtyEvent where
  | fromPty (bytes : List Nat)
  | fromStdin (bytes : List Nat)
deriving DecidableEq

/-- The observable state of one run of the multiplexing loop: the capture
state, the bytes echoed to the real terminal, the bytes forwarded to the PTY
master, and the signal numbers sent to the child shell process. -/
structure LoopState where
  cap : CapState
  stdoutBytes : List Nat
  toPtyBytes : List Nat
  sigsSent : List Nat
deriving DecidableEq

/-- One iteration body of the loop for one ready descriptor. A zero-byte PTY
read breaks the loop; a nonempty PTY read is echoed verbatim and flushed; a
zero-byte stdin read sends SIGTERM (signal 15) to the child and breaks; a
nonempty stdin read is handled by handleStdinChunk. -/
def ptyStep (fs : FS) (st : LoopState) :
    PtyEvent → LoopState × Option TermReason
  | .fromPty [] => (st, some .ShellExited)
  | .fromPty (b :: bs) =>
      ({ st with stdoutBytes := st.stdoutBytes ++ (b :: bs) }, none)
  | .fromStdin [] =>
      ({ st with sigsSent := st.sigsSent ++ [15] }, some .UserEOF)
  | .fromStdin (b :: bs) =>
      let r := handleStdinChunk fs st.cap (b :: bs)
      ({ st with cap := r.1, toPtyBytes := st.toPtyBytes ++ r.2 }, none)

/-- The multiplexing loop over a finite trace of readiness events. A none
reason means the trace ended with the loop still blocked waiting for the next
event. -/
def ptyLoop (fs : FS) (st : LoopState) :
    List PtyEvent → LoopState × Option TermReason
  | [] => (st, none)
  | e :: es =>
    match ptyStep fs st e with
    | (st1, some r) => (st1, some r)
    | (st1, none) => ptyLoop fs st1 es

/-- The loop state at session start: the three logs were cleared by the cli
shell branch just before shell_session runs. -/
def initLoopState : LoopState :=
  { cap := { command_log := [], executed_scripts := [] },
    stdoutBytes := [], toPtyBytes := [], sigsSent := [] }

/-- The outcome of the parent branch of shell_session: the loop result plus
the finally block, which sets capturing to False, stops the file watcher and
calls generate_ansible_playbook — each exactly once per session, on every
exit path of the loop. -/
structure SessionOutcome where
  loop : LoopState
  reason : Option TermReason
  capturingAfter : Bool
  monitorStopped : Bool
  finalizeCount : Nat
deriving DecidableEq

/-- Embedding of the parent branch of shell_session: run the multiplexing
loop on the event trace, then run the finally block once. -/
def shell_session_run (fs : FS) (events : List PtyEvent) : SessionOutcome :=
  let r := ptyLoop fs initLoopState events
  { loop := r.1, reason := r.2,
    capturingAfter := false, monitorStopped := true, finalizeCount := 1 }

/-! ## Session start: the cli shell branch plus the head of shell_session
(main.py lines 143-145 and 298-304) -/

/-- The process-wide state of main.py relevant to the capture lifecycle: the
three log structures, the capturing flag and whether the watchdog observer is
active. -/
structure OrcState where
  command_log : List String
  file_changes : List (String × FileEntry)
  executed_scripts : List (String × List String)
  capturing : Bool
  observerActive : Bool
deriving DecidableEq

/-- Embedding of starting a capture session: the cli shell branch clears the
three logs unconditionally, then shell_session sets capturing to True and
starts file monitoring. There is no check of the previous capturing value
and no error return anywhere on this path. -/
def beginCapture (_s : OrcState) : OrcState :=
  { command_log := [], file_changes := [], executed_scripts := [],
    capturing := true, observerActive := true }

/-- The error taxonomy of the session state machine as the spec gives it. -/
inductive CaptureErr where
  | AlreadyCapturing
  | NotCapturing
deriving DecidableEq

/-- Modelled from the spec: beginCapture as the spec contracts it, failing
with AlreadyCapturing and mutating nothing when the session is already
capturing. -/
def specBeginCapture (s : OrcState) : Except CaptureErr OrcState :=
  if s.capturing then .error .AlreadyCapturing
  else .ok { command_log := [], file_changes := [], executed_scripts := [],
             capturing := true, observerActive := true }

/-! ## Summarization handoff: generate_ansible_playbook
(main.py lines 211-263) -/

/-- The persisted configuration mapping read before a session. Absent keys
are none; the code reads them with dict.get defaults. -/
structure ApiConfig where
  api_endpoint : Option String
  api_key : Option String
  model : Option String
  context_length : Option Nat
deriving DecidableEq

/-- The outcome of one requests.post call as main.py observes it. -/
inductive HttpOutcome where
  | ok (body : String)
  | httpError (status : Nat)
  | raised
deriving DecidableEq

/-- Model of requests.post: posting to an empty URL raises MissingSchema
inside the client before any network contact; otherwise the external
transport decides the outcome. -/
def requestsPost (transport : String → HttpOutcome) (url : String) :
    HttpOutcome :=
  if url = "" then .raised else transport url

/-- The observable effects of one generate_ansible_playbook call: the URL
handed to requests.post (none would mean no post call was made), whether an
error message was printed, whether the call escaped with an uncaught
exception, and the playbook text written to disk on success. -/
structure GenOutcome where
  postedTo : Option String
  reported : Bool
  crashed : Bool
  savedPlaybook : Option String
deriving DecidableEq

/-- Embedding of generate_ansible_playbook. The serialized prompt reads the
three logs but never writes them, so the session state is returned as is.
The endpoint is read as config.get of api_endpoint with default empty
string, and requests.post is always called with it; a 200 response has its
content stripped and written to the chosen path, any other status or any
raised exception is printed and produces nothing. -/
def generate_ansible_playbook (transport : String → HttpOutcome)
    (config : ApiConfig) (s : OrcState) : OrcState × GenOutcome :=
  let llm_endpoint := config.api_endpoint.getD ""
  match requestsPost transport llm_endpoint with
  | .ok body =>
      (s, { postedTo := some llm_endpoint, reported := false, crashed := false,
            savedPlaybook := some (pyStrip body) })
  | .httpError _ =>
      (s, { postedTo := some llm_endpoint, reported := true, crashed := false,
            savedPlaybook := none })
  | .raised =>
      (s, { postedTo := some llm_endpoint, reported := true, crashed := false,
            savedPlaybook := none })

/-! ## Shared concrete collaborators for closed instances -/

/-- A filesystem with no readable files. -/
def fs0 : FS := ⟨fun _ => false, fun _ => none⟩

/-- A filesystem on which every path exists with one fixed content. -/
def fsA : FS := ⟨fun _ => true, fun _ => some ["echo a"]⟩

/-- The same filesystem at a later time, after the file content changed. -/
def fsB : FS := ⟨fun _ => true, fun _ => some ["echo b"]⟩

/-! ## Helper lemmas -/

theorem dropWhile_head_false (p : Char → Bool) :
    ∀ (l : List Char) (a : Char) (t : List Char),
      l.dropWhile p = a :: t → p a = false := by
  intro l
  induction l with
  | nil => intro a t h; simp [List.dropWhile] at h
  | cons x xs ih =>
    intro a t h
    rw [List.dropWhile_cons] at h
    by_cases hx : p x
    · rw [if_pos hx] at h
      exact ih a t h
    · rw [if_neg hx] at h
      injection h with h1 _
      subst h1
      simpa using hx

theorem pyStrip_exists_nonspace (s : String) (h : pyStrip s ≠ "") :
    ∃ c ∈ (pyStrip s).data, isPySpace c = false := by
  by_cases hnil : ((s.data.dropWhile isPySpace).reverse.dropWhile isPySpace) = []
  · exfalso
    apply h
    show String.mk (((s.data.dropWhile isPySpace).reverse.dropWhile isPySpace).reverse) = ""
    rw [hnil]
    rfl
  · cases hc : ((s.data.dropWhile isPySpace).reverse.dropWhile isPySpace) with
    | nil => exact absurd hc hnil
    | cons a t =>
      refine ⟨a, ?_, dropWhile_head_false _ _ a t hc⟩
      show a ∈ (((s.data.dropWhile isPySpace).reverse.dropWhile isPySpace)).reverse
      rw [hc]
      simp

theorem lookupEntry_setEntry {α : Type} (l : List (String × α)) (k : String) (v : α) :
    lookupEntry (setEntry l k v) k = some v := by
  induction l with
  | nil => simp [setEntry, lookupEntry]
  | cons hd tl ih =>
    obtain ⟨k0, v0⟩ := hd
    by_cases hk : k0 = k
    · simp [setEntry, hk, lookupEntry]
    · simp [setEntry, hk, lookupEntry, ih]

theorem capture_command_log (fs : FS) (st : CapState) (l : String) :
    (capture_command fs st l).command_log
      = st.command_log ++ (keepCmd l).toList := by
  simp only [capture_command, keepCmd]
  split_ifs <;> simp

theorem captureLines_log (fs : FS) :
    ∀ (lines : List String) (st : CapState),
      (captureLines fs st lines).command_log
        = st.command_log ++ lines.filterMap keepCmd := by
  intro lines
  induction lines with
  | nil => intro st; simp [captureLines]
  | cons l ls ih =>
    intro st
    have h1 : captureLines fs st (l :: ls)
        = captureLines fs (capture_command fs st l) ls := rfl
    rw [h1, ih, capture_command_log]
    cases h : keepCmd l <;> simp [List.filterMap_cons, h]

theorem capture_script_eq (fs : FS) (scripts : List (String × List String))
    (path : String) (c : List String)
    (h1 : fs.pathExists path = true) (h2 : fs.readLines path = some c) :
    capture_script fs scripts path = setEntry scripts path c := by
  unfold capture_script
  rw [h1, h2]
  simp

theorem observe_loop (udiff : List String → List String → String) (path : String)
    (h : pyEndsWith path ".new" = false) :
    ∀ (cs : List (List String)) (c : List String) (d : Option String),
      observeSeq udiff [(path, ⟨c, d⟩)] path cs
        = [(path, ⟨c, match cs.getLast? with
                      | none => d
                      | some l => some (udiff c l)⟩)] := by
  intro cs
  induction cs with
  | nil => intro c d; rfl
  | cons ci cs ih =>
    intro c d
    have hstep : observeSeq udiff [(path, ⟨c, d⟩)] path (ci :: cs)
        = observeSeq udiff [(path, ⟨c, some (udiff c ci)⟩)] path cs := by
      show observeSeq udiff
          (on_modified udiff ⟨fun _ => true, fun _ => some ci⟩ true
            [(path, ⟨c, d⟩)] false path) path cs
        = observeSeq udiff [(path, ⟨c, some (udiff c ci)⟩)] path cs
      congr 1
      simp [on_modified, h, lookupEntry, setEntry]
    rw [hstep, ih]
    cases cs with
    | nil => rfl
    | cons x xs => rfl

/-! ## Claim C1 -/

/-- Claim C1 (amended): for every watched file path not ending in the skipped
suffix, the first successful observation stores the content as baseline with
a None diff; every subsequent observation stores a diff computed between the
FIRST observed content and the newly observed content, and leaves the stored
baseline at the first observed content — the diff IS cumulative from the
first observation, because on_modified never reassigns the content field. -/
theorem C1_diff_cumulative_from_first
    (udiff : List String → List String → String) (path : String)
    (h : pyEndsWith path ".new" = false)
    (c : List String) (cs : List (List String)) :
    lookupEntry (observeSeq udiff [] path (c :: cs)) path
      = some ⟨c, (cs.getLast?).map fun l => udiff c l⟩ := by
  have hstep : observeSeq udiff [] path (c :: cs)
      = observeSeq udiff [(path, ⟨c, none⟩)] path cs := by
    show observeSeq udiff
        (on_modified udiff ⟨fun _ => true, fun _ => some c⟩ true [] false path)
        path cs
      = observeSeq udiff [(path, ⟨c, none⟩)] path cs
    congr 1
    simp [on_modified, h, lookupEntry, setEntry]
  rw [hstep, observe_loop udiff path h cs c none]
  cases hl : cs.getLast? <;> simp [lookupEntry]

/-- Claim C1 witness: a concrete two-observation run of the diff tracker. -/
theorem C1_witness :
    pyEndsWith "/tmp/a.txt" ".new" = false
    ∧ lookupEntry (observeSeq lenDiff [] "/tmp/a.txt" [["x"], ["x", "y"]]) "/tmp/a.txt"
        = some ⟨["x"], ([["x", "y"]].getLast?).map fun l => lenDiff ["x"] l⟩ :=
  ⟨by decide,
   C1_diff_cumulative_from_first lenDiff "/tmp/a.txt" (by decide) ["x"] [["x", "y"]]⟩

/-- Claim C1 counterexample: after observing contents [], [x], [x, y] in turn,
the stored entry keeps the FIRST content [] as baseline and a diff computed
from the first and third contents; the claim predicts the newest content
[x, y] as baseline and a diff computed from the second and third contents,
a different entry. -/
theorem C1_counterexample :
    lookupEntry (observeSeq lenDiff [] "/tmp/a.txt" [[], ["x"], ["x", "y"]]) "/tmp/a.txt"
      = some ⟨[], some (lenDiff [] ["x", "y"])⟩
    ∧ (some (⟨[], some (lenDiff [] ["x", "y"])⟩ : FileEntry)
        ≠ some (⟨["x", "y"], some (lenDiff ["x"] ["x", "y"])⟩ : FileEntry)) := by
  constructor
  · decide
  · decide

/-! ## Claim C2 -/

/-- Claim C2 (amended): script capture is last-write-wins, not idempotent:
every invocation on an existing readable path stores the content read at
that invocation, overwriting any existing entry, so after two invocations
the ScriptSnapshot entry equals the content at the second call. -/
theorem C2_capture_script_overwrites (fs1 fs2 : FS)
    (scripts : List (String × List String)) (path : String) (c : List String)
    (h1 : fs2.pathExists path = true) (h2 : fs2.readLines path = some c) :
    lookupEntry (capture_script fs2 (capture_script fs1 scripts path) path) path
      = some c := by
  rw [capture_script_eq fs2 _ path c h1 h2, lookupEntry_setEntry]

/-- Claim C2 witness: capturing deploy.sh twice across a content change. -/
theorem C2_witness :
    fsB.pathExists "deploy.sh" = true
    ∧ fsB.readLines "deploy.sh" = some ["echo b"]
    ∧ lookupEntry (capture_script fsB (capture_script fsA [] "deploy.sh") "deploy.sh")
        "deploy.sh" = some ["echo b"] :=
  ⟨rfl, rfl, C2_capture_script_overwrites fsA fsB [] "deploy.sh" ["echo b"] rfl rfl⟩

/-- Claim C2 counterexample: the file content changes between two capture
calls; the surviving entry is the SECOND content, not the first as the claim
states. -/
theorem C2_counterexample :
    lookupEntry (capture_script fsB (capture_script fsA [] "deploy.sh") "deploy.sh")
      "deploy.sh" = some ["echo b"]
    ∧ (some ["echo b"] ≠ some ["echo a"]) := by
  constructor
  · decide
  · decide

/-! ## Claim C3 -/

/-- Claim C3: for every sequence of raw lines handed to the command
interceptor, the resulting CommandRecord is exactly the in-order sequence of
surviving stripped lines (so relative order is preserved), and every entry is
neither empty nor whitespace-only: it contains a non-whitespace character. -/
theorem C3_command_record_trimmed_ordered (fs : FS) (lines : List String) :
    (captureLines fs ⟨[], []⟩ lines).command_log = lines.filterMap keepCmd
    ∧ ∀ e ∈ (captureLines fs ⟨[], []⟩ lines).command_log,
        e ≠ "" ∧ ∃ c ∈ e.data, isPySpace c = false := by
  have hlog := captureLines_log fs lines ⟨[], []⟩
  constructor
  · simpa using hlog
  · intro e he
    rw [hlog] at he
    obtain ⟨l, _, hl⟩ := List.mem_filterMap.mp (by simpa using he)
    simp only [keepCmd] at hl
    split_ifs at hl with h1 h2
    injection hl with hl2
    subst hl2
    exact ⟨h1, pyStrip_exists_nonspace l h1⟩

/-- Claim C3 witness: a concrete surviving line. -/
theorem C3_witness :
    ("ls -la" ∈ (captureLines fs0 ⟨[], []⟩ ["ls -la"]).command_log)
    ∧ ("ls -la" ≠ "" ∧ ∃ c ∈ "ls -la".data, isPySpace c = false) :=
  ⟨by decide,
   (C3_command_record_trimmed_ordered fs0 ["ls -la"]).2 "ls -la" (by decide)⟩

/-! ## Claim C4 -/

/-- Claim C4: CommandRecord never contains an entry with the program name
orcai as a substring — every observed line whose stripped form contains it is
discarded before appending. -/
theorem C4_command_record_self_filtering (fs : FS) (lines : List String) :
    ∀ e ∈ (captureLines fs ⟨[], []⟩ lines).command_log,
      hasSub "orcai" e = false := by
  intro e he
  rw [captureLines_log] at he
  obtain ⟨l, _, hl⟩ := List.mem_filterMap.mp (by simpa using he)
  simp only [keepCmd] at hl
  split_ifs at hl with h1 h2
  injection hl with hl2
  subst hl2
  simpa using h2

/-- Claim C4 witness: a concrete entry free of the program name. -/
theorem C4_witness :
    ("ls -la" ∈ (captureLines fs0 ⟨[], []⟩ ["ls -la"]).command_log)
    ∧ hasSub "orcai" "ls -la" = false :=
  ⟨by decide, C4_command_record_self_filtering fs0 ["ls -la"] "ls -la" (by decide)⟩

/-! ## Claim C10 -/

/-- Claim C10: a file-modification event delivered while the capturing flag
is false leaves the file-change map completely unchanged, whatever the
event, path and filesystem content. -/
theorem C10_on_modified_frame (udiff : List String → List String → String)
    (fs : FS) (fc : List (String × FileEntry)) (isDir : Bool) (path : String) :
    on_modified udiff fs false fc isDir path = fc := by
  simp [on_modified]

/-! ## Decoder lemmas -/

theorem decFold_shift (e : List Char) :
    ∀ (bytes : List Nat) (out : List Char) (st : Utf8Pend),
      List.foldl (decFold e) (out, st) bytes
        = (out ++ (List.foldl (decFold e) ([], st) bytes).1,
           (List.foldl (decFold e) ([], st) bytes).2) := by
  intro bytes
  induction bytes with
  | nil => intro out st; simp
  | cons b bs ih =>
    intro out st
    simp only [List.foldl_cons]
    rw [show decFold e (out, st) b
          = (out ++ (utf8Step e st b).1, (utf8Step e st b).2) from rfl,
        show decFold e ([], st) b
          = ([] ++ (utf8Step e st b).1, (utf8Step e st b).2) from rfl]
    rw [ih (out ++ (utf8Step e st b).1) (utf8Step e st b).2,
        ih ([] ++ (utf8Step e st b).1) (utf8Step e st b).2]
    simp

theorem decFold_ascii (e : List Char) :
    ∀ (pre : List Nat), (∀ b ∈ pre, b < 0x80) →
      List.foldl (decFold e) ([], Utf8Pend.clear) pre
        = (pre.map Char.ofNat, Utf8Pend.clear) := by
  intro pre
  induction pre with
  | nil => intro _; rfl
  | cons b bs ih =>
    intro h
    have hb : b < 0x80 := h b (List.mem_cons_self b bs)
    have hstep : decFold e ([], Utf8Pend.clear) b
        = ([Char.ofNat b], Utf8Pend.clear) := by
      simp [decFold, utf8Step, utf8Start, hb]
    simp only [List.foldl_cons]
    rw [hstep, decFold_shift e bs [Char.ofNat b] Utf8Pend.clear,
        ih (fun x hx => h x (List.mem_cons_of_mem b hx))]
    simp

theorem pyDecode_ascii_append (e : List Char) (pre rest : List Nat)
    (h : ∀ b ∈ pre, b < 0x80) :
    pyDecode e (pre ++ rest) = pre.map Char.ofNat ++ pyDecode e rest := by
  simp only [pyDecode, List.foldl_append]
  rw [decFold_ascii e pre h,
      decFold_shift e rest (pre.map Char.ofNat) Utf8Pend.clear]
  cases h2 : (List.foldl (decFold e) ([], Utf8Pend.clear) rest).2 <;> simp [h2]

theorem pyDecode_invalid_cons (e : List Char) (rest : List Nat) :
    pyDecode e (0xFF :: rest) = e ++ pyDecode e rest := by
  simp only [pyDecode, List.foldl_cons]
  rw [show decFold e ([], Utf8Pend.clear) 0xFF = (e, Utf8Pend.clear) from rfl,
      decFold_shift e rest e Utf8Pend.clear]
  cases h2 : (List.foldl (decFold e) ([], Utf8Pend.clear) rest).2 <;> simp [h2]

/-! ## Claim C5 -/

/-- Claim C5 (amended): for every chunk of bytes read from the real terminal
input, the loop decodes it permissively, splits the text on newline, hands
EVERY resulting line segment — including the final, possibly partial one —
to the command interceptor in order, and forwards the original unmodified
bytes to the PTY master. -/
theorem C5_every_segment_handed_bytes_forwarded (fs : FS) (st : CapState)
    (chunk : List Nat) :
    (handleStdinChunk fs st chunk).1.command_log
      = st.command_log
        ++ ((splitNl (pyDecode [] chunk)).map String.mk).filterMap keepCmd
    ∧ (handleStdinChunk fs st chunk).2 = chunk :=
  ⟨captureLines_log fs ((splitNl (pyDecode [] chunk)).map String.mk) st, rfl⟩

/-- Claim C5 counterexample: for the chunk ab with no newline, the code hands
the final segment to the interceptor and records the command ab, while the
behavior the spec describes — hand only the non-final segments — records
nothing. -/
theorem C5_counterexample :
    (handleStdinChunk fs0 ⟨[], []⟩ [0x61, 0x62]).1.command_log = ["ab"]
    ∧ (specHandleStdinChunk fs0 ⟨[], []⟩ [0x61, 0x62]).1.command_log = []
    ∧ (["ab"] : List String) ≠ [] := by
  refine ⟨?_, ?_, by decide⟩
  · decide
  · decide

/-! ## Claim C6 -/

/-- Claim C6 (amended): decoding of terminal input is permissive and total —
an undecodable byte is not fatal, but it is dropped rather than replaced: the
capture state after handling a chunk containing an undecodable byte between
ASCII spans is exactly the state after handling the chunk with that byte
absent. -/
theorem C6_undecodable_bytes_dropped (fs : FS) (st : CapState)
    (pre post : List Nat) (h1 : ∀ b ∈ pre, b < 0x80) :
    (handleStdinChunk fs st (pre ++ 0xFF :: post)).1
      = (handleStdinChunk fs st (pre ++ post)).1 := by
  simp only [handleStdinChunk]
  rw [pyDecode_ascii_append [] pre (0xFF :: post) h1,
      pyDecode_invalid_cons [] post,
      pyDecode_ascii_append [] pre post h1]
  simp

/-- Claim C6 witness: the byte 0xFF between the ASCII bytes a and b is
dropped without fatal effect. -/
theorem C6_witness :
    (∀ b ∈ [0x61], b < 0x80)
    ∧ (handleStdinChunk fs0 ⟨[], []⟩ ([0x61] ++ 0xFF :: [0x62])).1
        = (handleStdinChunk fs0 ⟨[], []⟩ ([0x61] ++ [0x62])).1 :=
  ⟨by decide, C6_undecodable_bytes_dropped fs0 ⟨[], []⟩ [0x61] [0x62] (by decide)⟩

/-- Claim C6 counterexample: on the lone undecodable byte 0xFF the decoding
the code performs (errors=ignore) yields nothing, while the decoding the
spec describes — undecodable spans replaced — yields the replacement
character; they differ, so undecodable spans are not replaced. -/
theorem C6_counterexample :
    pyDecode [] [0xFF] = []
    ∧ specDecodeReplace [0xFF] = [Char.ofNat 0xFFFD]
    ∧ pyDecode [] [0xFF] ≠ specDecodeReplace [0xFF] := by
  refine ⟨rfl, rfl, ?_⟩
  decide

/-! ## Claim C7 -/

theorem ptyLoop_eof (fs : FS) (post : List PtyEvent) :
    ∀ (pre : List PtyEvent) (st : LoopState),
      (∀ ev ∈ pre, ev ≠ PtyEvent.fromPty [] ∧ ev ≠ PtyEvent.fromStdin []) →
      (ptyLoop fs st (pre ++ PtyEvent.fromStdin [] :: post)).2
          = some TermReason.UserEOF
      ∧ (ptyLoop fs st (pre ++ PtyEvent.fromStdin [] :: post)).1.sigsSent
          = st.sigsSent ++ [15] := by
  intro pre
  induction pre with
  | nil =>
    intro st _
    exact ⟨rfl, rfl⟩
  | cons ev pre ih =>
    intro st h
    have hev := h ev (List.mem_cons_self ev pre)
    have hrest : ∀ x ∈ pre, x ≠ PtyEvent.fromPty [] ∧ x ≠ PtyEvent.fromStdin [] :=
      fun x hx => h x (List.mem_cons_of_mem ev hx)
    cases ev with
    | fromPty bs =>
      cases bs with
      | nil => exact absurd rfl hev.1
      | cons b bs2 =>
        have hstep : ptyLoop fs st ((PtyEvent.fromPty (b :: bs2) :: pre)
              ++ PtyEvent.fromStdin [] :: post)
            = ptyLoop fs { st with stdoutBytes := st.stdoutBytes ++ (b :: bs2) }
                (pre ++ PtyEvent.fromStdin [] :: post) := rfl
        rw [hstep]
        exact ih _ hrest
    | fromStdin bs =>
      cases bs with
      | nil => exact absurd rfl hev.2
      | cons b bs2 =>
        have hstep : ptyLoop fs st ((PtyEvent.fromStdin (b :: bs2) :: pre)
              ++ PtyEvent.fromStdin [] :: post)
            = ptyLoop fs { st with
                  cap := (handleStdinChunk fs st.cap (b :: bs2)).1,
                  toPtyBytes := st.toPtyBytes
                    ++ (handleStdinChunk fs st.cap (b :: bs2)).2 }
                (pre ++ PtyEvent.fromStdin [] :: post) := rfl
        rw [hstep]
        exact ih _ hrest

/-- Claim C7: when a read from the real terminal input yields zero bytes
(after any prefix of nonempty reads), the loop sends the child shell exactly
one termination signal (SIGTERM, number 15), ends with reason UserEOF, and
the finalize handoff of shell_session — capturing reset, watcher
deactivation, summarization call — runs exactly once. -/
theorem C7_user_eof_finalize_once (fs : FS) (pre post : List PtyEvent)
    (h : ∀ ev ∈ pre, ev ≠ PtyEvent.fromPty [] ∧ ev ≠ PtyEvent.fromStdin []) :
    (shell_session_run fs (pre ++ PtyEvent.fromStdin [] :: post)).reason
        = some TermReason.UserEOF
    ∧ (shell_session_run fs (pre ++ PtyEvent.fromStdin [] :: post)).loop.sigsSent
        = [15]
    ∧ (shell_session_run fs (pre ++ PtyEvent.fromStdin [] :: post)).finalizeCount = 1
    ∧ (shell_session_run fs (pre ++ PtyEvent.fromStdin [] :: post)).monitorStopped
        = true
    ∧ (shell_session_run fs (pre ++ PtyEvent.fromStdin [] :: post)).capturingAfter
        = false := by
  obtain ⟨h2, h1⟩ := ptyLoop_eof fs post pre initLoopState h
  refine ⟨h2, ?_, rfl, rfl, rfl⟩
  show (ptyLoop fs initLoopState (pre ++ PtyEvent.fromStdin [] :: post)).1.sigsSent
      = [15]
  rw [h1]
  rfl

/-- A concrete event trace: a prompt chunk from the shell, the line ls from
the user, then end-of-input. -/
def evs7 : List PtyEvent :=
  [PtyEvent.fromPty [0x24], PtyEvent.fromStdin [0x6C, 0x73, 0x0A]]

/-- Claim C7 witness: the concrete trace ends with UserEOF, one SIGTERM and
one finalize. -/
theorem C7_witness :
    (∀ ev ∈ evs7, ev ≠ PtyEvent.fromPty [] ∧ ev ≠ PtyEvent.fromStdin [])
    ∧ ((shell_session_run fs0 (evs7 ++ PtyEvent.fromStdin [] :: [])).reason
          = some TermReason.UserEOF
       ∧ (shell_session_run fs0 (evs7 ++ PtyEvent.fromStdin [] :: [])).loop.sigsSent
          = [15]
       ∧ (shell_session_run fs0 (evs7 ++ PtyEvent.fromStdin [] :: [])).finalizeCount = 1
       ∧ (shell_session_run fs0 (evs7 ++ PtyEvent.fromStdin [] :: [])).monitorStopped
          = true
       ∧ (shell_session_run fs0 (evs7 ++ PtyEvent.fromStdin [] :: [])).capturingAfter
          = false) :=
  ⟨by decide, C7_user_eof_finalize_once fs0 evs7 [] (by decide)⟩

/-! ## Claim C8 -/

/-- Claim C8 (amended): starting a capture session while the session is
already Capturing does not fail — the code has no AlreadyCapturing check and
no error channel; it unconditionally clears all three log structures and
(re)enters the capturing state. -/
theorem C8_begin_capture_resets (s : OrcState) (h : s.capturing = true) :
    (beginCapture s).capturing = true
    ∧ (beginCapture s).command_log = []
    ∧ (beginCapture s).file_changes = []
    ∧ (beginCapture s).executed_scripts = [] :=
  ⟨rfl, rfl, rfl, rfl⟩

/-- Claim C8 witness: a concrete already-capturing state. -/
theorem C8_witness :
    (⟨["ls"], [], [], true, true⟩ : OrcState).capturing = true
    ∧ ((beginCapture ⟨["ls"], [], [], true, true⟩).capturing = true
       ∧ (beginCapture ⟨["ls"], [], [], true, true⟩).command_log = []
       ∧ (beginCapture ⟨["ls"], [], [], true, true⟩).file_changes = []
       ∧ (beginCapture ⟨["ls"], [], [], true, true⟩).executed_scripts = []) :=
  ⟨rfl, C8_begin_capture_resets ⟨["ls"], [], [], true, true⟩ rfl⟩

/-- Claim C8 counterexample: with the session already capturing and a
nonempty command log, starting a session clears the log — the log structures
are mutated, where the claim requires an AlreadyCapturing error (as the
spec-modelled contract returns) and no mutation. -/
theorem C8_counterexample :
    (beginCapture ⟨["ls"], [], [], true, true⟩).command_log = []
    ∧ (⟨["ls"], [], [], true, true⟩ : OrcState).command_log = ["ls"]
    ∧ specBeginCapture ⟨["ls"], [], [], true, true⟩
        = Except.error CaptureErr.AlreadyCapturing
    ∧ (([] : List String) ≠ ["ls"]) :=
  ⟨rfl, rfl, rfl, by decide⟩

/-! ## Claim C9 -/

/-- Claim C9 (amended): when the configured endpoint is absent at finalize
time there is no precondition check: the summarization request IS attempted,
with the empty default endpoint URL; the HTTP client rejects it before any
network contact, the resulting exception is caught and reported, the session
log is left untouched in memory and nothing is saved, no exception escapes,
and the outcome is independent of the external transport. -/
theorem C9_missing_endpoint_attempts_and_reports
    (transport : String → HttpOutcome) (cfg : ApiConfig) (s : OrcState)
    (h : cfg.api_endpoint = none) :
    (generate_ansible_playbook transport cfg s).1 = s
    ∧ (generate_ansible_playbook transport cfg s).2.postedTo = some ""
    ∧ (generate_ansible_playbook transport cfg s).2.reported = true
    ∧ (generate_ansible_playbook transport cfg s).2.crashed = false
    ∧ (generate_ansible_playbook transport cfg s).2.savedPlaybook = none
    ∧ ∀ transport2 : String → HttpOutcome,
        generate_ansible_playbook transport2 cfg s
          = generate_ansible_playbook transport cfg s := by
  have hgAll : ∀ t : String → HttpOutcome,
      generate_ansible_playbook t cfg s
        = (s, { postedTo := some "", reported := true, crashed := false,
                savedPlaybook := none }) := by
    intro t
    simp [generate_ansible_playbook, requestsPost, h]
  refine ⟨?_, ?_, ?_, ?_, ?_, ?_⟩
  · rw [hgAll transport]
  · rw [hgAll transport]
  · rw [hgAll transport]
  · rw [hgAll transport]
  · rw [hgAll transport]
  · intro t2
    rw [hgAll t2, hgAll transport]

/-- Claim C9 witness: a concrete absent-endpoint configuration. -/
theorem C9_witness :
    (⟨none, none, none, none⟩ : ApiConfig).api_endpoint = none
    ∧ (generate_ansible_playbook (fun _ => HttpOutcome.ok "yaml")
          ⟨none, none, none, none⟩ ⟨["ls"], [], [], false, false⟩).1
        = ⟨["ls"], [], [], false, false⟩
    ∧ (generate_ansible_playbook (fun _ => HttpOutcome.ok "yaml")
          ⟨none, none, none, none⟩ ⟨["ls"], [], [], false, false⟩).2.postedTo
        = some ""
    ∧ (generate_ansible_playbook (fun _ => HttpOutcome.ok "yaml")
          ⟨none, none, none, none⟩ ⟨["ls"], [], [], false, false⟩).2.reported
        = true
    ∧ (generate_ansible_playbook (fun _ => HttpOutcome.ok "yaml")
          ⟨none, none, none, none⟩ ⟨["ls"], [], [], false, false⟩).2.crashed
        = false
    ∧ (generate_ansible_playbook (fun _ => HttpOutcome.ok "yaml")
          ⟨none, none, none, none⟩ ⟨["ls"], [], [], false, false⟩).2.savedPlaybook
        = none :=
  ⟨rfl,
   (C9_missing_endpoint_attempts_and_reports (fun _ => HttpOutcome.ok "yaml")
      ⟨none, none, none, none⟩ ⟨["ls"], [], [], false, false⟩ rfl).1,
   (C9_missing_endpoint_attempts_and_reports (fun _ => HttpOutcome.ok "yaml")
      ⟨none, none, none, none⟩ ⟨["ls"], [], [], false, false⟩ rfl).2.1,
   (C9_missing_endpoint_attempts_and_reports (fun _ => HttpOutcome.ok "yaml")
      ⟨none, none, none, none⟩ ⟨["ls"], [], [], false, false⟩ rfl).2.2.1,
   (C9_missing_endpoint_attempts_and_reports (fun _ => HttpOutcome.ok "yaml")
      ⟨none, none, none, none⟩ ⟨["ls"], [], [], false, false⟩ rfl).2.2.2.1,
   (C9_missing_endpoint_attempts_and_reports (fun _ => HttpOutcome.ok "yaml")
      ⟨none, none, none, none⟩ ⟨["ls"], [], [], false, false⟩ rfl).2.2.2.2.1⟩

/-- Claim C9 counterexample: with the endpoint absent, the code still calls
requests.post — with the empty default URL — where the claim states the
request is not attempted at all. -/
theorem C9_counterexample :
    (generate_ansible_playbook (fun _ => HttpOutcome.ok "yaml")
        ⟨none, none, none, none⟩ ⟨["ls"], [], [], false, false⟩).2.postedTo
      = some ""
    ∧ (some "" ≠ (none : Option String)) :=
  ⟨rfl, by decide⟩
